import Mathlib

/-!
Verification development for the magics input-adapter module
(nmc_met_graphics/magics/util.py).

The module is shallowly embedded:
  * numpy float64 values are modelled by the inductive type Val, which
    distinguishes NaN, the two infinities, and finite numbers (finite
    values are carried as rationals; the code performs no arithmetic on
    field values, it only classifies them with np.isnan and moves them
    around, so this abstraction is exact);
  * 1-D arrays are lists, 2-D arrays are lists of rows; the adapters
    receive their arguments at the shapes documented in the source
    (lat/lon as 1-D vectors, udata/vdata as 2-D grids), on which
    np.squeeze and astype(np.float64) are the identity;
  * for the scalar adapter minput_2d, whose claim is about squeezing,
    arrays are modelled with an explicit shape vector (NDArray) and
    np.squeeze drops the singleton axes;
  * Python dictionaries for metadata are association lists;
  * exceptions raised by numpy/xarray (slice step zero, missing
    variable key) are modelled with Except.
-/

namespace NmcMagics

/-- Abstract model of a numpy float64 value: NaN, the infinities, or a
finite number (carried as a rational).  The adapter code never does
arithmetic on field values, so this classification is all it observes. -/
inductive Val where
  | nan : Val
  | inf : Val
  | ninf : Val
  | num : ℚ → Val
deriving DecidableEq, Repr

/-- Model of np.isnan on a single value: true exactly on NaN
(infinities are NOT NaN). -/
def Val.isnan : Val → Bool
  | .nan => true
  | _ => false

/-- Model of np.isfinite on a single value: true exactly on finite numbers. -/
def Val.finite : Val → Bool
  | .num _ => true
  | _ => false

/-- Metadata dictionaries (string keys to string values). -/
abbrev Metadata := List (String × String)

/-- Exact ceiling of n/d for naturals.  The Python source computes
math.ceil(len(...)/60.0) with float division; for array lengths the
float division is exact enough that the result is the mathematical
ceiling, which for naturals is (n + d - 1) / d. -/
def ceilDivNat (n d : Nat) : Nat := (n + d - 1) / d

/-- Embedding of get_skip_vector (util.py lines 22-34).  Coordinates are
modelled as rationals; a map_region is (lonmin, lonmax, latmin, latmax).
When a region is given, numpy boolean masking restricts each coordinate
vector to the closed bounds before sizing. -/
def get_skip_vector (lon lat : List ℚ) (map_region : Option (ℚ × ℚ × ℚ × ℚ)) : Nat :=
  match map_region with
  | some (lon0, lon1, lat0, lat1) =>
    let lonR := lon.filter (fun x => decide (lon0 ≤ x ∧ x ≤ lon1))
    let latR := lat.filter (fun y => decide (lat0 ≤ y ∧ y ≤ lat1))
    max (ceilDivNat lonR.length 60) (ceilDivNat latR.length 30)
  | none =>
    max (ceilDivNat lon.length 60) (ceilDivNat lat.length 30)

/-- Stride formula as the specification states it (section 4.1 / 8):
max of the ceilings, over the rationals, of the restricted counts
divided by 60 resp. 30. -/
def spec_skip_vector (lon lat : List ℚ) (map_region : Option (ℚ × ℚ × ℚ × ℚ)) : Nat :=
  match map_region with
  | some (lon0, lon1, lat0, lat1) =>
    max ⌈((lon.countP (fun x => decide (lon0 ≤ x ∧ x ≤ lon1)) : ℚ) / 60)⌉₊
        ⌈((lat.countP (fun y => decide (lat0 ≤ y ∧ y ≤ lat1)) : ℚ) / 30)⌉₊
  | none =>
    max ⌈((lon.length : ℚ) / 60)⌉₊ ⌈((lat.length : ℚ) / 30)⌉₊

theorem ceilDivNat_eq_ceil (n d : Nat) (hd : 0 < d) :
    ceilDivNat n d = ⌈((n : ℚ) / d)⌉₊ := by
  have key : ∀ m : Nat, ceilDivNat n d ≤ m ↔ ⌈((n : ℚ) / d)⌉₊ ≤ m := by
    intro m
    rw [ceilDivNat, Nat.div_le_iff_le_mul_add_pred hd, Nat.ceil_le,
      div_le_iff₀' (by exact_mod_cast hd), ← Nat.cast_mul, Nat.cast_le]
    omega
  have h1 := (key _).mp le_rfl
  have h2 := (key _).mpr le_rfl
  omega

/-- C1: get_skip_vector returns max(ceil(count(lon restricted to R)/60),
ceil(count(lat restricted to R)/30)); with R = None the full vector
lengths are used, and when the restriction leaves both vectors empty the
result is 0. -/
theorem get_skip_vector_correct (lon lat : List ℚ) (map_region : Option (ℚ × ℚ × ℚ × ℚ)) :
    get_skip_vector lon lat map_region = spec_skip_vector lon lat map_region ∧
    (∀ lon0 lon1 lat0 lat1,
      map_region = some (lon0, lon1, lat0, lat1) →
      lon.filter (fun x => decide (lon0 ≤ x ∧ x ≤ lon1)) = [] →
      lat.filter (fun y => decide (lat0 ≤ y ∧ y ≤ lat1)) = [] →
      get_skip_vector lon lat map_region = 0) := by
  constructor
  · match map_region with
    | some (lon0, lon1, lat0, lat1) =>
      simp only [get_skip_vector, spec_skip_vector]
      rw [ceilDivNat_eq_ceil _ _ (by norm_num), ceilDivNat_eq_ceil _ _ (by norm_num),
        List.countP_eq_length_filter, List.countP_eq_length_filter]
      norm_num
    | none =>
      simp only [get_skip_vector, spec_skip_vector]
      rw [ceilDivNat_eq_ceil _ _ (by norm_num), ceilDivNat_eq_ceil _ _ (by norm_num)]
      norm_num
  · intro lon0 lon1 lat0 lat1 hr hlon hlat
    subst hr
    simp only [get_skip_vector, hlon, hlat]
    rfl

/-- Witness for C1 at a concrete input: a region that excludes every
coordinate yields stride 0. -/
theorem get_skip_vector_correct_witness :
    get_skip_vector [(5 : ℚ)] [(7 : ℚ)] (some (0, 1, 0, 1)) =
      spec_skip_vector [(5 : ℚ)] [(7 : ℚ)] (some (0, 1, 0, 1)) ∧
    get_skip_vector [(5 : ℚ)] [(7 : ℚ)] (some (0, 1, 0, 1)) = 0 := by
  refine ⟨(get_skip_vector_correct [(5 : ℚ)] [(7 : ℚ)] (some (0, 1, 0, 1))).1, ?_⟩
  exact (get_skip_vector_correct [(5 : ℚ)] [(7 : ℚ)] (some (0, 1, 0, 1))).2
    0 1 0 1 rfl (by decide) (by decide)

/-! Array slicing and flattening.  Python a[::s] keeps the elements at
indices 0, s, 2s, ...; on a 2-D array a[::s, ::s] keeps every s-th row
and, inside each kept row, every s-th element; .flatten() concatenates
the rows (row-major order). -/

/-- Helper for everyNth: k counts the positions still to skip before the
next kept element; on keeping an element the counter resets to s - 1. -/
def everyNthAux (s : Nat) : Nat → List α → List α
  | _, [] => []
  | 0, a :: rest => a :: everyNthAux s (s - 1) rest
  | Nat.succ k, _ :: rest => everyNthAux s k rest

/-- Model of the Python slice l[::s] for s ≥ 1: the elements at indices
0, s, 2s, ... -/
def everyNth (s : Nat) (l : List α) : List α := everyNthAux s 0 l

/-- Model of a[::s, ::s].flatten() on a 2-D array given as a list of
rows: keep every s-th row, every s-th element within each kept row, and
concatenate. -/
def sliceFlatten (s : Nat) (g : List (List α)) : List α :=
  ((everyNth s g).map (everyNth s)).flatten

/-- Model of the first result of np.meshgrid(lon, lat): a grid of shape
(len lat, len lon) whose every row is lon. -/
def meshLon (lon lat : List Val) : List (List Val) :=
  lat.map (fun _ => lon)

/-- Model of the second result of np.meshgrid(lon, lat): a grid of shape
(len lat, len lon) whose row i is constantly lat i. -/
def meshLat (lon lat : List Val) : List (List Val) :=
  lat.map (fun a => lon.map (fun _ => a))

/-- Model of the boolean mask (~np.isnan(u)) & (~np.isnan(v)) on two
flattened arrays: elementwise, true where both entries are non-NaN. -/
def nanMask (u v : List Val) : List Bool :=
  List.zipWith (fun a b => !a.isnan && !b.isnan) u v

/-- Model of numpy boolean-mask indexing a[mask]: keep the elements of l
at the positions where mask is true. -/
def boolIndex (mask : List Bool) (l : List Val) : List Val :=
  ((l.zip mask).filter (fun p => p.2)).map Prod.fst

/-- Default metadata applied by minput_2d_vector when the caller passes
none (util.py line 103). -/
def default_vector_metadata : Metadata :=
  [("units", "m/s"), ("long_name", "wind field")]

/-- Default value of the metadata parameter of minput_xarray_vector
(util.py line 160); note the capital W, unlike default_vector_metadata. -/
def default_xarray_vector_metadata : Metadata :=
  [("units", "m/s"), ("long_name", "Wind field")]

/-- Record forwarded to magics.minput by the vector adapters. -/
structure MInputVector where
  input_type : String
  input_x_component_values : List Val
  input_y_component_values : List Val
  input_latitude_values : List Val
  input_longitude_values : List Val
  input_metadata : Metadata
deriving DecidableEq, Repr

/-- Slicing precondition on a rectangular grid of rows: np.squeeze keeps
the array 2-D exactly when neither dimension is 1.  On a grid with a
singleton dimension the squeeze yields a 0-d or 1-D array, and the
subsequent two-axis slice a[::skip, ::skip] raises IndexError (too many
indices).  An empty row list models shape (0, 0). -/
def squeezeKeeps2d (g : List (List α)) : Bool :=
  g.length != 1 && (g.headD []).length != 1

/-- Embedding of minput_2d_vector (util.py lines 64-115).  Inputs are 2-D
grids as row lists and 1-D coordinate vectors; astype(np.float64) is the
identity on the abstract value domain.  The squeeze of udata/vdata is
modelled through its observable effect on the slicing: a grid with a
singleton dimension squeezes below 2-D and the slice at lines 88-89
raises IndexError, modelled as Except.error.  (The squeeze of the lat/lon
vectors is harmless: np.meshgrid ravels its inputs, so a length-1
coordinate vector behaves identically before and after squeezing.)  The
remaining error paths of the numpy pipeline are also modelled: a zero
skip raises at the same slicing expression (the model tests the step
first; no claim depends on which of the two exceptions fires when both
conditions hold), flattened u/v of different lengths raise when the
masks are combined at line 93, and a mask whose length differs from the
coordinate meshes raises at the boolean indexing of lines 98-99 — which
in Python is reached only after the None return at line 96.  An all-NaN
field yields Except.ok none (Python returns None); otherwise the
constructed record is returned. -/
def minput_2d_vector (udata vdata : List (List Val)) (lon lat : List Val)
    (skip : Nat) (metadata : Option Metadata) : Except String (Option MInputVector) :=
  let lonM := meshLon lon lat
  let latM := meshLat lon lat
  if skip = 0 then Except.error "slice step cannot be zero"
  else if !(squeezeKeeps2d udata && squeezeKeeps2d vdata) then
    Except.error "IndexError: too many indices for array"
  else
    let uwind_field := sliceFlatten skip udata
    let vwind_field := sliceFlatten skip vdata
    let latF := sliceFlatten skip latM
    let lonF := sliceFlatten skip lonM
    if uwind_field.length ≠ vwind_field.length then
      Except.error "ValueError: operands could not be broadcast together"
    else
      let index := nanMask uwind_field vwind_field
      let u1 := boolIndex index uwind_field
      let v1 := boolIndex index vwind_field
      if u1.length = 0 then Except.ok none
      else if latF.length ≠ uwind_field.length ∨ lonF.length ≠ uwind_field.length then
        Except.error "IndexError: boolean index did not match indexed array"
      else
        let lat1 := boolIndex index latF
        let lon1 := boolIndex index lonF
        let md := metadata.getD default_vector_metadata
        Except.ok (some ⟨"geographical", u1, v1, lat1, lon1, md⟩)

/-! Scalar adapter.  For minput_2d the interesting behaviour is the
squeeze, so arrays are modelled with an explicit shape vector. -/

/-- Model of a numpy ndarray: a shape vector together with the row-major
data.  (Well-formed arrays satisfy data.length = shape.prod; the
adapter never checks this.) -/
structure NDArray where
  shape : List Nat
  data : List Val
deriving DecidableEq, Repr

/-- Model of np.squeeze: drop every axis of extent 1; the row-major data
is unchanged. -/
def npSqueeze (a : NDArray) : NDArray :=
  ⟨a.shape.filter (fun n => n != 1), a.data⟩

/-- Model of ndarray.astype(np.float64): the identity on the abstract
value domain, since Val already models float64 values and the cast
neither reorders nor filters. -/
def astypeFloat64 (a : NDArray) : NDArray := a

/-- Model of len(a) for a numpy array: the extent of the first axis. -/
def npLen (a : NDArray) : Nat := a.shape.headD 0

/-- Record forwarded to magics.minput by the scalar adapter. -/
structure MInput2D where
  input_type : String
  input_field : NDArray
  input_latitudes_list : NDArray
  input_longitudes_list : NDArray
  input_metadata : Option Metadata
deriving DecidableEq, Repr

/-- Embedding of minput_2d (util.py lines 37-61): squeeze and cast the
three arrays, forward everything else untouched (metadata is forwarded
as given, even when None). -/
def minput_2d (data lon lat : NDArray) (metadata : Option Metadata) : MInput2D :=
  let lat1 := npSqueeze (astypeFloat64 lat)
  let lon1 := npSqueeze (astypeFloat64 lon)
  let input_field_values := npSqueeze (astypeFloat64 data)
  ⟨"geographical", input_field_values, lat1, lon1, metadata⟩

/-! Labeled-dataset vector adapter. -/

/-- Model of an xarray dataset after the non-spatial-axis collapsing
loop of minput_xarray_vector: named 2-D variables plus the lat and lon
coordinate vectors. -/
structure DataSet where
  vars : List (String × List (List Val))
  lat : List Val
  lon : List Val
deriving DecidableEq, Repr

/-- Dictionary-style variable access ds[name]; none models the KeyError
xarray raises when no variable has that name. -/
def dsGet (d : DataSet) (name : String) : Option (List (List Val)) :=
  (d.vars.find? (fun p => p.1 == name)).map Prod.snd

/-- Embedding of minput_xarray_vector (util.py lines 159-208).  The
source indexes the datasets with the literal strings "u_varname" and
"v_varname" rather than with the u_varname / v_varname parameters (the
KeyError of lines 188-189 fires before any slicing), and it performs no
NaN filtering; lat and lon are taken from the u dataset.  As in the
array form, a variable with a singleton dimension squeezes below 2-D at
line 188 and the slice at line 193 raises IndexError, modelled as
Except.error, and a zero skip raises at the same slicing expression (the
model tests the step first; no claim depends on the order).  The
metadata parameter defaults (in Python) to
default_xarray_vector_metadata; the model takes it explicitly. -/
def minput_xarray_vector (uwind vwind : DataSet) ( u_varname v_varname : String)
    (skip : Nat) (metadata : Metadata) : Except String MInputVector :=
  let lat := uwind.lat
  let lon := uwind.lon
  match dsGet uwind "u_varname" with
  | none => Except.error "KeyError: u_varname"
  | some uf =>
    match dsGet vwind "v_varname" with
    | none => Except.error "KeyError: v_varname"
    | some vf =>
      if skip = 0 then Except.error "slice step cannot be zero"
      else if !(squeezeKeeps2d uf && squeezeKeeps2d vf) then
        Except.error "IndexError: too many indices for array"
      else
        Except.ok ⟨"geographical",
          sliceFlatten skip uf, sliceFlatten skip vf,
          sliceFlatten skip (meshLat lon lat), sliceFlatten skip (meshLon lon lat),
          metadata⟩

/-! Lemmas about slicing, masking and boolean indexing. -/

theorem everyNthAux_map (s : Nat) (f : α → β) : ∀ (k : Nat) (l : List α),
    everyNthAux s k (l.map f) = (everyNthAux s k l).map f := by
  intro k l
  induction l generalizing k with
  | nil => simp [everyNthAux]
  | cons a rest ih =>
    cases k with
    | zero => simp only [List.map_cons, everyNthAux, ih]
    | succ k => simp only [List.map_cons, everyNthAux, ih]

theorem mem_everyNthAux (s : Nat) (x : α) : ∀ (k : Nat) (l : List α),
    x ∈ everyNthAux s k l → x ∈ l := by
  intro k l
  induction l generalizing k with
  | nil => simp [everyNthAux]
  | cons a rest ih =>
    cases k with
    | zero =>
      simp only [everyNthAux, List.mem_cons]
      rintro (h | h)
      · exact Or.inl h
      · exact Or.inr (ih _ h)
    | succ k =>
      simp only [everyNthAux]
      intro h
      exact List.mem_cons_of_mem _ (ih _ h)

theorem everyNthAux_length (s : Nat) (hs : 0 < s) : ∀ (k : Nat) (l : List α),
    (everyNthAux s k l).length = (l.length - k + s - 1) / s := by
  intro k l
  induction l generalizing k with
  | nil =>
    simp only [everyNthAux, List.length_nil]
    have h : 0 - k + s - 1 = s - 1 := by omega
    rw [h, Nat.div_eq_of_lt (by omega)]
  | cons a rest ih =>
    cases k with
    | zero =>
      simp only [everyNthAux, List.length_cons]
      rw [ih (s - 1)]
      rcases le_or_lt (s - 1) rest.length with h | h
      · have h1 : rest.length - (s - 1) + s - 1 = rest.length := by omega
        have h2 : rest.length + 1 - 0 + s - 1 = rest.length + s := by omega
        rw [h1, h2, Nat.add_div_right _ hs]
      · have h1 : rest.length - (s - 1) + s - 1 = s - 1 := by omega
        have h2 : rest.length + 1 - 0 + s - 1 = rest.length + s := by omega
        rw [h1, h2, Nat.div_eq_of_lt (by omega), Nat.add_div_right _ hs,
          Nat.div_eq_of_lt (by omega)]
    | succ k =>
      simp only [everyNthAux, List.length_cons]
      rw [ih k]
      congr 1
      omega

theorem everyNth_map (s : Nat) (f : α → β) (l : List α) :
    everyNth s (l.map f) = (everyNth s l).map f :=
  everyNthAux_map s f 0 l

theorem mem_everyNth (s : Nat) (x : α) (l : List α) (h : x ∈ everyNth s l) : x ∈ l :=
  mem_everyNthAux s x 0 l h

theorem everyNth_length (s : Nat) (hs : 0 < s) (l : List α) :
    (everyNth s l).length = ceilDivNat l.length s := by
  rw [everyNth, everyNthAux_length s hs 0 l, ceilDivNat]
  congr 2

theorem sliceFlatten_map (s : Nat) (f : α → β) (g : List (List α)) :
    sliceFlatten s (g.map (List.map f)) = (sliceFlatten s g).map f := by
  simp only [sliceFlatten, everyNth_map, List.map_flatten, List.map_map]
  congr 1
  apply List.map_congr_left
  intro row _
  simp only [Function.comp_apply]
  exact everyNth_map s f row

theorem mem_sliceFlatten (s : Nat) (x : α) (g : List (List α))
    (h : x ∈ sliceFlatten s g) : ∃ row ∈ g, x ∈ row := by
  simp only [sliceFlatten, List.mem_flatten, List.mem_map] at h
  obtain ⟨l, ⟨row, hrow, rfl⟩, hx⟩ := h
  exact ⟨row, mem_everyNth s row g hrow, mem_everyNth s x row hx⟩

theorem sliceFlatten_length_rect (s : Nat) (hs : 0 < s) (g : List (List α)) (c : Nat)
    (hc : ∀ row ∈ g, row.length = c) :
    (sliceFlatten s g).length = ceilDivNat g.length s * ceilDivNat c s := by
  rw [sliceFlatten, List.length_flatten, List.map_map]
  have hrows : ∀ row ∈ everyNth s g,
      (List.length ∘ everyNth s) row = Function.const (List α) (ceilDivNat c s) row := by
    intro row hrow
    simp only [Function.comp_apply, Function.const_apply]
    rw [everyNth_length s hs row, hc row (mem_everyNth s row g hrow)]
  rw [List.map_congr_left hrows, List.map_const, List.sum_replicate, smul_eq_mul,
    everyNth_length s hs g]

theorem boolIndex_length_le (mask : List Bool) (l : List Val) :
    (boolIndex mask l).length ≤ l.length := by
  calc (boolIndex mask l).length
      = ((l.zip mask).filter (fun p => p.2)).length := by
        rw [boolIndex, List.length_map]
    _ ≤ (l.zip mask).length := List.length_filter_le _ _
    _ ≤ l.length := by rw [List.length_zip]; exact inf_le_left

theorem boolIndex_map (kp : α → Bool) (f : α → Val) (P : List α) :
    boolIndex (P.map kp) (P.map f) = (P.filter kp).map f := by
  induction P with
  | nil => rfl
  | cons a P ih =>
    simp only [List.map_cons, boolIndex, List.zip_cons_cons, List.filter_cons]
    cases h : kp a
    · simpa [boolIndex, h] using ih
    · simpa [boolIndex, h] using ih

theorem nanMask_map (fu fv : α → Val) (P : List α) :
    nanMask (P.map fu) (P.map fv) =
      P.map (fun p => !(fu p).isnan && !(fv p).isnan) := by
  rw [nanMask, List.zipWith_map]
  induction P with
  | nil => rfl
  | cons a P ih => simp only [List.zipWith_cons_cons, List.map_cons, ih]

theorem boolIndex_nanMask_eq_nil_iff (a b : List Val) :
    boolIndex (nanMask a b) a = [] ↔
      ∀ p ∈ a.zip b, p.1.isnan = true ∨ p.2.isnan = true := by
  induction a generalizing b with
  | nil => simp [boolIndex, nanMask]
  | cons x a ih =>
    cases b with
    | nil => simp [boolIndex, nanMask]
    | cons y b =>
      simp only [nanMask, List.zipWith_cons_cons, List.zip_cons_cons, boolIndex,
        List.filter_cons, List.forall_mem_cons]
      cases hx : x.isnan <;> cases hy : y.isnan <;>
        simpa [boolIndex, nanMask, hx, hy] using ih b

theorem boolIndex_cons (m : Bool) (mask : List Bool) (x : Val) (l : List Val) :
    boolIndex (m :: mask) (x :: l) =
      cond m (x :: boolIndex mask l) (boolIndex mask l) := by
  cases m <;> simp [boolIndex, List.filter_cons]

theorem nanMask_cons (x y : Val) (a b : List Val) :
    nanMask (x :: a) (y :: b) = (!x.isnan && !y.isnan) :: nanMask a b := rfl

theorem isnan_false_of_mem_boolIndex_left (a b : List Val) (x : Val)
    (h : x ∈ boolIndex (nanMask a b) a) : x.isnan = false := by
  induction a generalizing b with
  | nil => simp [boolIndex, nanMask] at h
  | cons z a ih =>
    cases b with
    | nil => simp [boolIndex, nanMask] at h
    | cons y b =>
      rw [nanMask_cons, boolIndex_cons] at h
      cases hz : z.isnan with
      | true =>
        rw [hz] at h
        simp only [Bool.not_true, Bool.false_and, cond_false] at h
        exact ih b h
      | false =>
        cases hy : y.isnan with
        | true =>
          rw [hz, hy] at h
          simp only [Bool.not_true, Bool.not_false, Bool.true_and, cond_false] at h
          exact ih b h
        | false =>
          rw [hz, hy] at h
          simp only [Bool.not_false, Bool.and_self, cond_true, List.mem_cons] at h
          rcases h with rfl | h
          · exact hz
          · exact ih b h

theorem isnan_false_of_mem_boolIndex_right (a b : List Val) (x : Val)
    (h : x ∈ boolIndex (nanMask a b) b) : x.isnan = false := by
  induction a generalizing b with
  | nil => simp [boolIndex, nanMask] at h
  | cons z a ih =>
    cases b with
    | nil => simp [boolIndex, nanMask] at h
    | cons y b =>
      rw [nanMask_cons, boolIndex_cons] at h
      cases hz : z.isnan with
      | true =>
        rw [hz] at h
        simp only [Bool.not_true, Bool.false_and, cond_false] at h
        exact ih b h
      | false =>
        cases hy : y.isnan with
        | true =>
          rw [hz, hy] at h
          simp only [Bool.not_true, Bool.not_false, Bool.true_and, cond_false] at h
          exact ih b h
        | false =>
          rw [hz, hy] at h
          simp only [Bool.not_false, Bool.and_self, cond_true, List.mem_cons] at h
          rcases h with rfl | h
          · exact hy
          · exact ih b h

/-- A grid is rectangular with r rows and c columns. -/
def Rect (g : List (List Val)) (r c : Nat) : Prop :=
  g.length = r ∧ ∀ row ∈ g, row.length = c

theorem squeezeKeeps2d_of_rect (g : List (List Val)) (r c : Nat) (h : Rect g r c)
    (hr : r ≠ 1) (hc : c ≠ 1) : squeezeKeeps2d g = true := by
  obtain ⟨hlen, hrow⟩ := h
  cases g with
  | nil => rfl
  | cons row rest =>
    have h1 : row.length = c := hrow row (List.mem_cons_self _ _)
    simp only [squeezeKeeps2d, List.headD_cons, Bool.and_eq_true, bne_iff_ne, ne_eq]
    exact ⟨fun hcon => hr (by omega), fun hcon => hc (by omega)⟩

theorem meshLat_length (lon lat : List Val) : (meshLat lon lat).length = lat.length := by
  simp [meshLat]

theorem meshLat_row_length (lon lat : List Val) (row : List Val)
    (h : row ∈ meshLat lon lat) : row.length = lon.length := by
  simp only [meshLat, List.mem_map] at h
  obtain ⟨a, _, rfl⟩ := h
  simp

theorem meshLon_length (lon lat : List Val) : (meshLon lon lat).length = lat.length := by
  simp [meshLon]

theorem meshLon_row_length (lon lat : List Val) (row : List Val)
    (h : row ∈ meshLon lon lat) : row.length = lon.length := by
  simp only [meshLon, List.mem_map] at h
  obtain ⟨a, _, rfl⟩ := h
  rfl

/-! Claims about minput_2d_vector. -/

/-- C2 (amended): on inputs at the documented shapes — rectangular u/v
grids of r rows and c columns with neither dimension 1 (so np.squeeze
keeps them 2-D and the slicing can run), coordinate vectors of matching
lengths — and stride at least 1, minput_2d_vector returns None exactly
when every stride-surviving (u, v) pair has a NaN u or a NaN v
component, i.e. no point survives the joint np.isnan filtering; when
some surviving pair has both components non-NaN it returns a
constructed record.  (The original claim said "non-finite": infinities
are not filtered by np.isnan, see the counterexample; and at
singleton-dimension grids the adapter raises instead of returning.) -/
theorem minput_2d_vector_none_iff (udata vdata : List (List Val)) (lon lat : List Val)
    (skip : Nat) (metadata : Option Metadata) (r c : Nat)
    (hu : Rect udata r c) (hv : Rect vdata r c)
    (hlat : lat.length = r) (hlon : lon.length = c)
    (hr1 : r ≠ 1) (hc1 : c ≠ 1) (hs : skip ≠ 0) :
    (minput_2d_vector udata vdata lon lat skip metadata = Except.ok none ↔
      ∀ p ∈ (sliceFlatten skip udata).zip (sliceFlatten skip vdata),
        p.1.isnan = true ∨ p.2.isnan = true) ∧
    ((∃ p ∈ (sliceFlatten skip udata).zip (sliceFlatten skip vdata),
        p.1.isnan = false ∧ p.2.isnan = false) →
      ∃ rec, minput_2d_vector udata vdata lon lat skip metadata =
        Except.ok (some rec)) := by
  have hsp : 0 < skip := Nat.pos_of_ne_zero hs
  have hku : squeezeKeeps2d udata = true := squeezeKeeps2d_of_rect udata r c hu hr1 hc1
  have hkv : squeezeKeeps2d vdata = true := squeezeKeeps2d_of_rect vdata r c hv hr1 hc1
  have hlu : (sliceFlatten skip udata).length = ceilDivNat r skip * ceilDivNat c skip := by
    rw [sliceFlatten_length_rect skip hsp udata c hu.2, hu.1]
  have hlv : (sliceFlatten skip vdata).length = ceilDivNat r skip * ceilDivNat c skip := by
    rw [sliceFlatten_length_rect skip hsp vdata c hv.2, hv.1]
  have hlla : (sliceFlatten skip (meshLat lon lat)).length =
      ceilDivNat r skip * ceilDivNat c skip := by
    rw [sliceFlatten_length_rect skip hsp (meshLat lon lat) c
      (fun row hrow => by rw [meshLat_row_length lon lat row hrow, hlon]),
      meshLat_length, hlat]
  have hllo : (sliceFlatten skip (meshLon lon lat)).length =
      ceilDivNat r skip * ceilDivNat c skip := by
    rw [sliceFlatten_length_rect skip hsp (meshLon lon lat) c
      (fun row hrow => by rw [meshLon_row_length lon lat row hrow, hlon]),
      meshLon_length, hlat]
  have hiff := boolIndex_nanMask_eq_nil_iff (sliceFlatten skip udata)
    (sliceFlatten skip vdata)
  simp only [minput_2d_vector]
  rw [if_neg hs, if_neg (by rw [hku, hkv]; simp),
    if_neg (fun hne => hne (hlu.trans hlv.symm))]
  split_ifs with hc0 hc2
  · refine ⟨iff_of_true rfl (hiff.mp (List.length_eq_zero.mp hc0)), ?_⟩
    rintro ⟨p, hp, h1, h2⟩
    rcases hiff.mp (List.length_eq_zero.mp hc0) p hp with h | h
    · rw [h1] at h; exact Bool.noConfusion h
    · rw [h2] at h; exact Bool.noConfusion h
  · rcases hc2 with h | h
    · exact absurd (hlla.trans hlu.symm) h
    · exact absurd (hllo.trans hlu.symm) h
  · refine ⟨⟨fun h => absurd h (by simp), ?_⟩, fun _ => ⟨_, rfl⟩⟩
    intro hall
    exact absurd (List.length_eq_zero.mpr (hiff.mpr hall)) hc0

/-- Witness for C2 at a concrete input: an all-NaN 2x2 field with
stride 1 satisfies the all-NaN condition and the adapter returns None. -/
theorem minput_2d_vector_none_iff_witness :
    (Rect [[Val.nan, Val.nan], [Val.nan, Val.nan]] 2 2 ∧
     ([Val.num 2, Val.num 3] : List Val).length = 2 ∧
     ([Val.num 0, Val.num 1] : List Val).length = 2 ∧
     (2 : Nat) ≠ 1 ∧ (1 : Nat) ≠ 0) ∧
    ((minput_2d_vector [[Val.nan, Val.nan], [Val.nan, Val.nan]]
        [[Val.nan, Val.nan], [Val.nan, Val.nan]]
        [Val.num 0, Val.num 1] [Val.num 2, Val.num 3] 1 none = Except.ok none ↔
      ∀ p ∈ (sliceFlatten 1 [[Val.nan, Val.nan], [Val.nan, Val.nan]]).zip
          (sliceFlatten 1 [[Val.nan, Val.nan], [Val.nan, Val.nan]]),
        p.1.isnan = true ∨ p.2.isnan = true) ∧
     ((∃ p ∈ (sliceFlatten 1 [[Val.nan, Val.nan], [Val.nan, Val.nan]]).zip
          (sliceFlatten 1 [[Val.nan, Val.nan], [Val.nan, Val.nan]]),
        p.1.isnan = false ∧ p.2.isnan = false) →
      ∃ rec, minput_2d_vector [[Val.nan, Val.nan], [Val.nan, Val.nan]]
        [[Val.nan, Val.nan], [Val.nan, Val.nan]]
        [Val.num 0, Val.num 1] [Val.num 2, Val.num 3] 1 none =
        Except.ok (some rec))) :=
  ⟨⟨⟨by decide, by decide⟩, by decide, by decide, by decide, by decide⟩,
   minput_2d_vector_none_iff [[Val.nan, Val.nan], [Val.nan, Val.nan]]
     [[Val.nan, Val.nan], [Val.nan, Val.nan]]
     [Val.num 0, Val.num 1] [Val.num 2, Val.num 3] 1 none 2 2
     ⟨by decide, by decide⟩ ⟨by decide, by decide⟩ (by decide) (by decide)
     (by decide) (by decide) (by decide)⟩

/-- Counterexample to C2 as stated: with a 2x2 all-infinite u grid every
u value is non-finite after striding, yet the adapter does not return
None — it returns a record carrying the infinities, because the filter
tests np.isnan, not finiteness. -/
theorem minput_2d_vector_allinf_not_none :
    (∀ x ∈ sliceFlatten 1 [[Val.inf, Val.inf], [Val.inf, Val.inf]], x.finite = false) ∧
    minput_2d_vector [[Val.inf, Val.inf], [Val.inf, Val.inf]]
      [[Val.num 0, Val.num 0], [Val.num 0, Val.num 0]]
      [Val.num 1, Val.num 2] [Val.num 3, Val.num 4] 1 none ≠ Except.ok none ∧
    minput_2d_vector [[Val.inf, Val.inf], [Val.inf, Val.inf]]
      [[Val.num 0, Val.num 0], [Val.num 0, Val.num 0]]
      [Val.num 1, Val.num 2] [Val.num 3, Val.num 4] 1 none =
      Except.ok (some ⟨"geographical",
        [Val.inf, Val.inf, Val.inf, Val.inf],
        [Val.num 0, Val.num 0, Val.num 0, Val.num 0],
        [Val.num 3, Val.num 3, Val.num 4, Val.num 4],
        [Val.num 1, Val.num 2, Val.num 1, Val.num 2],
        default_vector_metadata⟩) :=
  ⟨by decide, fun hcon => Option.noConfusion (Except.ok.inj hcon), rfl⟩

/-- C3 (amended): every value in the forwarded u and v component lists
of minput_2d_vector is non-NaN.  (The original claim said no non-finite
value appears; infinities do pass through, see the counterexample.) -/
theorem minput_2d_vector_no_nan_output (udata vdata : List (List Val)) (lon lat : List Val)
    (skip : Nat) (metadata : Option Metadata) (rec : MInputVector)
    (h : minput_2d_vector udata vdata lon lat skip metadata = Except.ok (some rec)) :
    (∀ x ∈ rec.input_x_component_values, x.isnan = false) ∧
    (∀ x ∈ rec.input_y_component_values, x.isnan = false) := by
  by_cases hs : skip = 0
  · subst hs; simp [minput_2d_vector] at h
  · simp only [minput_2d_vector] at h
    rw [if_neg hs] at h
    split at h
    · exact absurd h (by simp)
    · split at h
      · exact absurd h (by simp)
      · split at h
        · exact absurd h (by simp)
        · split at h
          · exact absurd h (by simp)
          · simp only [Except.ok.injEq, Option.some.injEq] at h
            subst h
            exact ⟨fun x hx => isnan_false_of_mem_boolIndex_left _ _ x hx,
                   fun x hx => isnan_false_of_mem_boolIndex_right _ _ x hx⟩

/-- Witness for C3 at a concrete 2x2 input with surviving points. -/
theorem minput_2d_vector_no_nan_output_witness :
    minput_2d_vector [[Val.num 1, Val.num 2], [Val.num 3, Val.num 4]]
      [[Val.num 5, Val.num 6], [Val.num 7, Val.num 8]]
      [Val.num 0, Val.num 1] [Val.num 2, Val.num 3] 1 none =
      Except.ok (some ⟨"geographical",
        [Val.num 1, Val.num 2, Val.num 3, Val.num 4],
        [Val.num 5, Val.num 6, Val.num 7, Val.num 8],
        [Val.num 2, Val.num 2, Val.num 3, Val.num 3],
        [Val.num 0, Val.num 1, Val.num 0, Val.num 1],
        default_vector_metadata⟩) ∧
    ((∀ x ∈ [Val.num 1, Val.num 2, Val.num 3, Val.num 4], x.isnan = false) ∧
     (∀ x ∈ [Val.num 5, Val.num 6, Val.num 7, Val.num 8], x.isnan = false)) :=
  ⟨rfl, minput_2d_vector_no_nan_output
    [[Val.num 1, Val.num 2], [Val.num 3, Val.num 4]]
    [[Val.num 5, Val.num 6], [Val.num 7, Val.num 8]]
    [Val.num 0, Val.num 1] [Val.num 2, Val.num 3] 1 none _ rfl⟩

/-- Counterexample to C3 as stated: in a 2x2 grid whose only non-NaN u
entry is +inf (with finite v), the infinite value survives the
filtering and appears in the forwarded component list, so not every
output point has finite components. -/
theorem minput_2d_vector_inf_in_output :
    minput_2d_vector [[Val.inf, Val.nan], [Val.nan, Val.nan]]
      [[Val.num 5, Val.num 5], [Val.num 5, Val.num 5]]
      [Val.num 1, Val.num 2] [Val.num 3, Val.num 4] 1 none =
      Except.ok (some ⟨"geographical", [Val.inf], [Val.num 5], [Val.num 3], [Val.num 1],
        default_vector_metadata⟩) ∧
    Val.inf ∈ [Val.inf] ∧ Val.inf.finite = false :=
  ⟨rfl, by decide, rfl⟩

/-- C7: the record forwarded by minput_2d_vector carries exactly the
default mapping units = m/s, long_name = wind field when the caller
passes no metadata, and the caller-supplied mapping unmodified
otherwise. -/
theorem minput_2d_vector_metadata_passthrough (udata vdata : List (List Val))
    (lon lat : List Val) (skip : Nat) (metadata : Option Metadata) (rec : MInputVector)
    (h : minput_2d_vector udata vdata lon lat skip metadata = Except.ok (some rec)) :
    rec.input_metadata = metadata.getD default_vector_metadata ∧
    (metadata = none →
      rec.input_metadata = [("units", "m/s"), ("long_name", "wind field")]) ∧
    (∀ m, metadata = some m → rec.input_metadata = m) := by
  by_cases hs : skip = 0
  · subst hs; simp [minput_2d_vector] at h
  · simp only [minput_2d_vector] at h
    rw [if_neg hs] at h
    split at h
    · exact absurd h (by simp)
    · split at h
      · exact absurd h (by simp)
      · split at h
        · exact absurd h (by simp)
        · split at h
          · exact absurd h (by simp)
          · simp only [Except.ok.injEq, Option.some.injEq] at h
            subst h
            refine ⟨rfl, ?_, ?_⟩
            · rintro rfl; rfl
            · rintro m rfl; rfl

/-- Witness for C7 at a concrete 2x2 input with defaulted metadata. -/
theorem minput_2d_vector_metadata_passthrough_witness :
    minput_2d_vector [[Val.num 3, Val.num 4], [Val.num 5, Val.num 6]]
      [[Val.num 3, Val.num 4], [Val.num 5, Val.num 6]]
      [Val.num 0, Val.num 1] [Val.num 2, Val.num 3] 1 none =
      Except.ok (some ⟨"geographical",
        [Val.num 3, Val.num 4, Val.num 5, Val.num 6],
        [Val.num 3, Val.num 4, Val.num 5, Val.num 6],
        [Val.num 2, Val.num 2, Val.num 3, Val.num 3],
        [Val.num 0, Val.num 1, Val.num 0, Val.num 1],
        default_vector_metadata⟩) ∧
    ((none : Option Metadata).getD default_vector_metadata =
      [("units", "m/s"), ("long_name", "wind field")]) ∧
    (⟨"geographical", [Val.num 3, Val.num 4, Val.num 5, Val.num 6],
        [Val.num 3, Val.num 4, Val.num 5, Val.num 6],
        [Val.num 2, Val.num 2, Val.num 3, Val.num 3],
        [Val.num 0, Val.num 1, Val.num 0, Val.num 1],
        default_vector_metadata⟩ : MInputVector).input_metadata =
      (none : Option Metadata).getD default_vector_metadata :=
  ⟨rfl, rfl,
   (minput_2d_vector_metadata_passthrough
     [[Val.num 3, Val.num 4], [Val.num 5, Val.num 6]]
     [[Val.num 3, Val.num 4], [Val.num 5, Val.num 6]]
     [Val.num 0, Val.num 1] [Val.num 2, Val.num 3] 1 none _ rfl).1⟩

/-- C10: get_skip_vector yields 0 when the region excludes every
coordinate, and calling minput_2d_vector with skip 0 makes the slicing
step raise (slice step of zero) instead of returning a record. -/
theorem minput_2d_vector_skip_zero_raises :
    get_skip_vector [(9 : ℚ)] [(9 : ℚ)] (some (2, 3, 2, 3)) = 0 ∧
    ∀ (udata vdata : List (List Val)) (lon lat : List Val) (metadata : Option Metadata),
      minput_2d_vector udata vdata lon lat 0 metadata =
        Except.error "slice step cannot be zero" := by
  refine ⟨by decide, fun udata vdata lon lat metadata => ?_⟩
  simp [minput_2d_vector]

/-- Counterexample to C4 as stated: a 3x3 grid (n = 9 total points)
with stride 2 forwards ceil(3/2)^2 = 4 points, and 4 is not at most
9 / 2^2 = 2.25. -/
theorem minput_2d_vector_count_exceeds :
    minput_2d_vector
      [[Val.num 1, Val.num 2, Val.num 3], [Val.num 4, Val.num 5, Val.num 6],
        [Val.num 7, Val.num 8, Val.num 9]]
      [[Val.num 1, Val.num 2, Val.num 3], [Val.num 4, Val.num 5, Val.num 6],
        [Val.num 7, Val.num 8, Val.num 9]]
      [Val.num 10, Val.num 11, Val.num 12] [Val.num 20, Val.num 21, Val.num 22] 2 none =
      Except.ok (some ⟨"geographical",
        [Val.num 1, Val.num 3, Val.num 7, Val.num 9],
        [Val.num 1, Val.num 3, Val.num 7, Val.num 9],
        [Val.num 20, Val.num 20, Val.num 22, Val.num 22],
        [Val.num 10, Val.num 12, Val.num 10, Val.num 12],
        default_vector_metadata⟩) ∧
    ¬ ((([Val.num 1, Val.num 3, Val.num 7, Val.num 9] : List Val).length : ℚ) ≤
        (9 : ℚ) / (2 : ℚ) ^ 2) :=
  ⟨rfl, by norm_num⟩

/-- C4 (amended): for a u grid of r rows and c columns and stride s at
least 1, the number of forwarded points is at most
ceil(r/s) * ceil(c/s) — the size of the stride-sliced grid.  (The
original bound n/s^2 fails when s does not divide the dimensions, see
the counterexample.) -/
theorem minput_2d_vector_count_bound (udata vdata : List (List Val)) (lon lat : List Val)
    (skip : Nat) (metadata : Option Metadata) (r c : Nat) (rec : MInputVector)
    (hs : 0 < skip) (hr : udata.length = r) (hc : ∀ row ∈ udata, row.length = c)
    (h : minput_2d_vector udata vdata lon lat skip metadata = Except.ok (some rec)) :
    rec.input_x_component_values.length ≤ ceilDivNat r skip * ceilDivNat c skip ∧
    (rec.input_x_component_values.length : ℚ) ≤
      (⌈(r : ℚ) / skip⌉₊ : ℚ) * (⌈(c : ℚ) / skip⌉₊ : ℚ) := by
  have hs' : skip ≠ 0 := Nat.pos_iff_ne_zero.mp hs
  simp only [minput_2d_vector] at h
  rw [if_neg hs'] at h
  split at h
  · exact absurd h (by simp)
  · split at h
    · exact absurd h (by simp)
    · split at h
      · exact absurd h (by simp)
      · split at h
        · exact absurd h (by simp)
        · simp only [Except.ok.injEq, Option.some.injEq] at h
          subst h
          have hb : (boolIndex
              (nanMask (sliceFlatten skip udata) (sliceFlatten skip vdata))
              (sliceFlatten skip udata)).length ≤
              ceilDivNat r skip * ceilDivNat c skip := by
            calc (boolIndex (nanMask (sliceFlatten skip udata) (sliceFlatten skip vdata))
                  (sliceFlatten skip udata)).length
                ≤ (sliceFlatten skip udata).length := boolIndex_length_le _ _
              _ = ceilDivNat udata.length skip * ceilDivNat c skip :=
                  sliceFlatten_length_rect skip hs udata c hc
              _ = ceilDivNat r skip * ceilDivNat c skip := by rw [hr]
          refine ⟨hb, ?_⟩
          rw [← ceilDivNat_eq_ceil r skip hs, ← ceilDivNat_eq_ceil c skip hs,
            ← Nat.cast_mul, Nat.cast_le]
          exact hb

/-- Witness for C4 at a concrete input: a 2x2 grid with stride 1
forwards four points, within the bound ceil(2/1) * ceil(2/1) = 4. -/
theorem minput_2d_vector_count_bound_witness :
    (0 < 1 ∧
      ([[Val.num 1, Val.num 2], [Val.num 3, Val.num 4]] : List (List Val)).length = 2 ∧
      (∀ row ∈ ([[Val.num 1, Val.num 2], [Val.num 3, Val.num 4]] : List (List Val)),
        row.length = 2) ∧
      minput_2d_vector [[Val.num 1, Val.num 2], [Val.num 3, Val.num 4]]
        [[Val.num 1, Val.num 2], [Val.num 3, Val.num 4]]
        [Val.num 0, Val.num 1] [Val.num 2, Val.num 3] 1 none =
        Except.ok (some ⟨"geographical",
          [Val.num 1, Val.num 2, Val.num 3, Val.num 4],
          [Val.num 1, Val.num 2, Val.num 3, Val.num 4],
          [Val.num 2, Val.num 2, Val.num 3, Val.num 3],
          [Val.num 0, Val.num 1, Val.num 0, Val.num 1],
          default_vector_metadata⟩)) ∧
    (([Val.num 1, Val.num 2, Val.num 3, Val.num 4] : List Val).length ≤
        ceilDivNat 2 1 * ceilDivNat 2 1 ∧
      ((([Val.num 1, Val.num 2, Val.num 3, Val.num 4] : List Val).length : ℚ) ≤
        (⌈(2 : ℚ) / (1 : Nat)⌉₊ : ℚ) * (⌈(2 : ℚ) / (1 : Nat)⌉₊ : ℚ))) :=
  ⟨⟨by decide, by decide, by decide, rfl⟩,
   minput_2d_vector_count_bound [[Val.num 1, Val.num 2], [Val.num 3, Val.num 4]]
     [[Val.num 1, Val.num 2], [Val.num 3, Val.num 4]]
     [Val.num 0, Val.num 1] [Val.num 2, Val.num 3]
     1 none 2 2 _ (by decide) (by decide) (by decide) rfl⟩

/-! Machinery for the co-indexing claim: a rectangular grid is the image
of the grid of index pairs under pointwise lookup, and the whole
slice/flatten/mask pipeline commutes with that image. -/

/-- Grid of index pairs: row i is (i, 0), (i, 1), ..., (i, c-1). -/
def idxGrid (r c : Nat) : List (List (Nat × Nat)) :=
  (List.range r).map (fun i => (List.range c).map (fun j => (i, j)))

/-- Lookup of a grid entry by index pair (out-of-range defaults to 0,
never exercised under the rectangularity hypotheses). -/
def nth2d (g : List (List Val)) (p : Nat × Nat) : Val :=
  (g.getD p.1 []).getD p.2 (Val.num 0)

theorem nth2d_eq (g : List (List Val)) (i j : Nat) (hi : i < g.length)
    (hj : j < g[i].length) : nth2d g (i, j) = g[i][j] := by
  rw [nth2d]
  rw [List.getD_eq_getElem g [] hi, List.getD_eq_getElem _ _ hj]

theorem grid_eq_idxGrid_map (g : List (List Val)) (r c : Nat) (f : Nat × Nat → Val)
    (hr : g.length = r)
    (hc : ∀ (i : Nat) (h : i < g.length), g[i].length = c)
    (hf : ∀ (i j : Nat) (hi : i < g.length) (hj : j < g[i].length), g[i][j] = f (i, j)) :
    g = (idxGrid r c).map (List.map f) := by
  subst hr
  refine List.ext_getElem (by simp [idxGrid]) ?_
  intro i h1 h2
  simp only [idxGrid, List.getElem_map, List.getElem_range, List.map_map]
  refine List.ext_getElem (by simp [hc i h1]) ?_
  intro j hj1 hj2
  simp only [List.getElem_map, List.getElem_range, Function.comp_apply]
  exact hf i j h1 hj1

theorem meshLat_eq_idxGrid_map (lon lat : List Val) (r c : Nat)
    (hr : lat.length = r) (hc : lon.length = c) :
    meshLat lon lat =
      (idxGrid r c).map (List.map (fun p => lat.getD p.1 (Val.num 0))) := by
  apply grid_eq_idxGrid_map
  · simpa [meshLat] using hr
  · intro i h
    simpa [meshLat] using hc
  · intro i j hi hj
    have hi' : i < lat.length := by simpa [meshLat] using hi
    simp only [meshLat, List.getElem_map]
    rw [List.getD_eq_getElem lat (Val.num 0) hi']

theorem meshLon_eq_idxGrid_map (lon lat : List Val) (r c : Nat)
    (hr : lat.length = r) (hc : lon.length = c) :
    meshLon lon lat =
      (idxGrid r c).map (List.map (fun p => lon.getD p.2 (Val.num 0))) := by
  apply grid_eq_idxGrid_map
  · simpa [meshLon] using hr
  · intro i h
    simpa [meshLon] using hc
  · intro i j hi hj
    have hj' : j < lon.length := by simpa [meshLon] using hj
    simp only [meshLon, List.getElem_map]
    rw [List.getD_eq_getElem lon (Val.num 0) hj']

theorem rect_eq_idxGrid_map (g : List (List Val)) (r c : Nat) (h : Rect g r c) :
    g = (idxGrid r c).map (List.map (fun p => nth2d g p)) := by
  apply grid_eq_idxGrid_map g r c _ h.1
  · intro i hi
    exact h.2 g[i] (List.getElem_mem hi)
  · intro i j hi hj
    exact (nth2d_eq g i j hi hj).symm

theorem bounds_of_mem_sliceFlatten_idxGrid (s r c : Nat) (p : Nat × Nat)
    (h : p ∈ sliceFlatten s (idxGrid r c)) : p.1 < r ∧ p.2 < c := by
  obtain ⟨row, hrow, hp⟩ := mem_sliceFlatten s p (idxGrid r c) h
  simp only [idxGrid, List.mem_map] at hrow
  obtain ⟨i, hi, rfl⟩ := hrow
  simp only [List.mem_map] at hp
  obtain ⟨j, hj, rfl⟩ := hp
  exact ⟨List.mem_range.mp hi, List.mem_range.mp hj⟩

/-- C5: after stride-slicing and joint filtering, the four forwarded
lists have the same length, and there is a single list Q of grid index
pairs, in range of the grids, such that the i-th entry of each of the
four lists is the value of the corresponding source array at the i-th
index pair of Q — u, v, latitude and longitude stay co-indexed. -/
theorem minput_2d_vector_coindexed (udata vdata : List (List Val)) (lon lat : List Val)
    (skip : Nat) (metadata : Option Metadata) (r c : Nat) (rec : MInputVector)
    (hu : Rect udata r c) (hv : Rect vdata r c)
    (hlat : lat.length = r) (hlon : lon.length = c)
    (h : minput_2d_vector udata vdata lon lat skip metadata = Except.ok (some rec)) :
    rec.input_y_component_values.length = rec.input_x_component_values.length ∧
    rec.input_latitude_values.length = rec.input_x_component_values.length ∧
    rec.input_longitude_values.length = rec.input_x_component_values.length ∧
    ∃ Q : List (Nat × Nat),
      (∀ p ∈ Q, p.1 < r ∧ p.2 < c) ∧
      rec.input_x_component_values = Q.map (fun p => nth2d udata p) ∧
      rec.input_y_component_values = Q.map (fun p => nth2d vdata p) ∧
      rec.input_latitude_values = Q.map (fun p => lat.getD p.1 (Val.num 0)) ∧
      rec.input_longitude_values = Q.map (fun p => lon.getD p.2 (Val.num 0)) := by
  by_cases hs : skip = 0
  · subst hs; simp [minput_2d_vector] at h
  · have hU : sliceFlatten skip udata =
        (sliceFlatten skip (idxGrid r c)).map (fun p => nth2d udata p) := by
      rw [show udata = (idxGrid r c).map (List.map (fun p => nth2d udata p)) from
        rect_eq_idxGrid_map udata r c hu, sliceFlatten_map]
      rw [← rect_eq_idxGrid_map udata r c hu]
    have hV : sliceFlatten skip vdata =
        (sliceFlatten skip (idxGrid r c)).map (fun p => nth2d vdata p) := by
      rw [show vdata = (idxGrid r c).map (List.map (fun p => nth2d vdata p)) from
        rect_eq_idxGrid_map vdata r c hv, sliceFlatten_map]
      rw [← rect_eq_idxGrid_map vdata r c hv]
    have hLa : sliceFlatten skip (meshLat lon lat) =
        (sliceFlatten skip (idxGrid r c)).map (fun p => lat.getD p.1 (Val.num 0)) := by
      rw [meshLat_eq_idxGrid_map lon lat r c hlat hlon, sliceFlatten_map]
    have hLo : sliceFlatten skip (meshLon lon lat) =
        (sliceFlatten skip (idxGrid r c)).map (fun p => lon.getD p.2 (Val.num 0)) := by
      rw [meshLon_eq_idxGrid_map lon lat r c hlat hlon, sliceFlatten_map]
    simp only [minput_2d_vector] at h
    rw [if_neg hs] at h
    split at h
    · exact absurd h (by simp)
    · split at h
      · exact absurd h (by simp)
      · split at h
        · exact absurd h (by simp)
        · split at h
          · exact absurd h (by simp)
          · simp only [Except.ok.injEq, Option.some.injEq] at h
            subst h
            dsimp only
            rw [hU, hV, hLa, hLo, nanMask_map, boolIndex_map, boolIndex_map,
              boolIndex_map, boolIndex_map]
            refine ⟨by rw [List.length_map, List.length_map],
              by rw [List.length_map, List.length_map],
              by rw [List.length_map, List.length_map],
              (sliceFlatten skip (idxGrid r c)).filter
                (fun p => !(nth2d udata p).isnan && !(nth2d vdata p).isnan),
              ?_, rfl, rfl, rfl, rfl⟩
            intro p hp
            exact bounds_of_mem_sliceFlatten_idxGrid skip r c p
              (List.mem_of_mem_filter hp)

/-- Witness for C5 at a concrete 2x2 input with NaNs at mixed
positions: two points survive, and all four forwarded lists follow the
same index list. -/
theorem minput_2d_vector_coindexed_witness :
    (Rect [[Val.num 1, Val.nan], [Val.num 3, Val.num 4]] 2 2 ∧
     Rect [[Val.num 5, Val.num 6], [Val.nan, Val.num 8]] 2 2 ∧
     ([Val.num 50, Val.num 51] : List Val).length = 2 ∧
     ([Val.num 100, Val.num 101] : List Val).length = 2 ∧
     minput_2d_vector [[Val.num 1, Val.nan], [Val.num 3, Val.num 4]]
       [[Val.num 5, Val.num 6], [Val.nan, Val.num 8]]
       [Val.num 100, Val.num 101] [Val.num 50, Val.num 51] 1 none =
       Except.ok (some ⟨"geographical", [Val.num 1, Val.num 4], [Val.num 5, Val.num 8],
         [Val.num 50, Val.num 51], [Val.num 100, Val.num 101],
         default_vector_metadata⟩)) ∧
    (([Val.num 5, Val.num 8] : List Val).length =
        ([Val.num 1, Val.num 4] : List Val).length ∧
     ([Val.num 50, Val.num 51] : List Val).length =
        ([Val.num 1, Val.num 4] : List Val).length ∧
     ([Val.num 100, Val.num 101] : List Val).length =
        ([Val.num 1, Val.num 4] : List Val).length ∧
     ∃ Q : List (Nat × Nat),
       (∀ p ∈ Q, p.1 < 2 ∧ p.2 < 2) ∧
       [Val.num 1, Val.num 4] =
         Q.map (fun p => nth2d [[Val.num 1, Val.nan], [Val.num 3, Val.num 4]] p) ∧
       [Val.num 5, Val.num 8] =
         Q.map (fun p => nth2d [[Val.num 5, Val.num 6], [Val.nan, Val.num 8]] p) ∧
       [Val.num 50, Val.num 51] =
         Q.map (fun p => ([Val.num 50, Val.num 51] : List Val).getD p.1 (Val.num 0)) ∧
       [Val.num 100, Val.num 101] =
         Q.map (fun p => ([Val.num 100, Val.num 101] : List Val).getD p.2 (Val.num 0))) :=
  ⟨⟨⟨by decide, by decide⟩, ⟨by decide, by decide⟩, by decide, by decide, rfl⟩,
   minput_2d_vector_coindexed [[Val.num 1, Val.nan], [Val.num 3, Val.num 4]]
     [[Val.num 5, Val.num 6], [Val.nan, Val.num 8]]
     [Val.num 100, Val.num 101] [Val.num 50, Val.num 51] 1 none 2 2 _
     ⟨by decide, by decide⟩ ⟨by decide, by decide⟩ (by decide) (by decide) rfl⟩

/-! Claims about the labeled-dataset vector adapter and the scalar
adapter. -/

/-- C6: the labeled-dataset vector adapter ignores its u_varname and
v_varname parameters.  A dataset whose only variable is named data,
requested with u_varname = data, raises KeyError, because the source
indexes the dataset with the literal string u_varname; and the result
never depends on the name parameters at all. -/
theorem minput_xarray_vector_ignores_varname :
    dsGet ⟨[("data", [[Val.num 1]])], [Val.num 0], [Val.num 0]⟩ "data" =
      some [[Val.num 1]] ∧
    minput_xarray_vector ⟨[("data", [[Val.num 1]])], [Val.num 0], [Val.num 0]⟩
      ⟨[("data", [[Val.num 2]])], [Val.num 0], [Val.num 0]⟩ "data" "data" 1
      default_xarray_vector_metadata = Except.error "KeyError: u_varname" ∧
    ∀ (uwind vwind : DataSet) (n1 n2 n3 n4 : String) (skip : Nat) (metadata : Metadata),
      minput_xarray_vector uwind vwind n1 n2 skip metadata =
        minput_xarray_vector uwind vwind n3 n4 skip metadata :=
  ⟨rfl, rfl, fun _ _ _ _ _ _ _ _ => rfl⟩

/-- C8 (amended): when the metadata parameter of minput_xarray_vector
is left at its default, the forwarded metadata is units = m/s,
long_name = Wind field — capital W, which differs from the array-form
adapter default long_name = wind field. -/
theorem minput_xarray_vector_default_metadata (uwind vwind : DataSet)
    ( u_varname v_varname : String) (skip : Nat) (rec : MInputVector)
    (h : minput_xarray_vector uwind vwind u_varname v_varname skip
      default_xarray_vector_metadata = Except.ok rec) :
    rec.input_metadata = [("units", "m/s"), ("long_name", "Wind field")] := by
  simp only [minput_xarray_vector] at h
  split at h
  · exact absurd h (by simp)
  · split at h
    · exact absurd h (by simp)
    · split at h
      · exact absurd h (by simp)
      · split at h
        · exact absurd h (by simp)
        · simp only [Except.ok.injEq] at h
          subst h
          rfl

/-- Witness for C8 at a concrete input that reaches the forwarding
call (the datasets carry variables literally named u_varname and
v_varname, the only names the source can find). -/
theorem minput_xarray_vector_default_metadata_witness :
    minput_xarray_vector
      ⟨[("u_varname", [[Val.num 1, Val.num 2], [Val.num 3, Val.num 4]])],
        [Val.num 0, Val.num 1], [Val.num 5, Val.num 6]⟩
      ⟨[("v_varname", [[Val.num 5, Val.num 6], [Val.num 7, Val.num 8]])],
        [Val.num 0, Val.num 1], [Val.num 5, Val.num 6]⟩ "data" "data" 1
      default_xarray_vector_metadata =
      Except.ok ⟨"geographical",
        [Val.num 1, Val.num 2, Val.num 3, Val.num 4],
        [Val.num 5, Val.num 6, Val.num 7, Val.num 8],
        [Val.num 0, Val.num 0, Val.num 1, Val.num 1],
        [Val.num 5, Val.num 6, Val.num 5, Val.num 6],
        default_xarray_vector_metadata⟩ ∧
    (⟨"geographical",
        [Val.num 1, Val.num 2, Val.num 3, Val.num 4],
        [Val.num 5, Val.num 6, Val.num 7, Val.num 8],
        [Val.num 0, Val.num 0, Val.num 1, Val.num 1],
        [Val.num 5, Val.num 6, Val.num 5, Val.num 6],
        default_xarray_vector_metadata⟩ : MInputVector).input_metadata =
      [("units", "m/s"), ("long_name", "Wind field")] :=
  ⟨rfl, minput_xarray_vector_default_metadata
    ⟨[("u_varname", [[Val.num 1, Val.num 2], [Val.num 3, Val.num 4]])],
      [Val.num 0, Val.num 1], [Val.num 5, Val.num 6]⟩
    ⟨[("v_varname", [[Val.num 5, Val.num 6], [Val.num 7, Val.num 8]])],
      [Val.num 0, Val.num 1], [Val.num 5, Val.num 6]⟩ "data" "data" 1 _ rfl⟩

/-- Counterexample to C8 as stated: with the metadata parameter left at
its default, the forwarded mapping is NOT the section-4.3 default
units = m/s, long_name = wind field — the long_name differs in case. -/
theorem minput_xarray_vector_metadata_differs :
    minput_xarray_vector
      ⟨[("u_varname", [[Val.num 3, Val.num 4], [Val.num 5, Val.num 6]])],
        [Val.num 1, Val.num 2], [Val.num 11, Val.num 12]⟩
      ⟨[("v_varname", [[Val.num 7, Val.num 8], [Val.num 9, Val.num 10]])],
        [Val.num 1, Val.num 2], [Val.num 11, Val.num 12]⟩ "data" "data" 1
      default_xarray_vector_metadata =
      Except.ok ⟨"geographical",
        [Val.num 3, Val.num 4, Val.num 5, Val.num 6],
        [Val.num 7, Val.num 8, Val.num 9, Val.num 10],
        [Val.num 1, Val.num 1, Val.num 2, Val.num 2],
        [Val.num 11, Val.num 12, Val.num 11, Val.num 12],
        default_xarray_vector_metadata⟩ ∧
    default_xarray_vector_metadata ≠ [("units", "m/s"), ("long_name", "wind field")] ∧
    default_xarray_vector_metadata ≠ default_vector_metadata :=
  ⟨rfl, by decide, by decide⟩

/-- C9: minput_2d forwards the field with no filtering or modification
of invalid values — the forwarded input_field is exactly the
float64-cast, squeezed input array, with the same data (NaNs and
infinities retained) — and under the documented shape invariant the
shape of the forwarded field is (len lat, len lon) of the forwarded
coordinate vectors. -/
theorem minput_2d_passthrough (data lon lat : NDArray) (metadata : Option Metadata) :
    (minput_2d data lon lat metadata).input_field = npSqueeze (astypeFloat64 data) ∧
    (minput_2d data lon lat metadata).input_field.data = data.data ∧
    ((npSqueeze data).shape = [npLen (npSqueeze lat), npLen (npSqueeze lon)] →
      (minput_2d data lon lat metadata).input_field.shape =
        [npLen ((minput_2d data lon lat metadata).input_latitudes_list),
         npLen ((minput_2d data lon lat metadata).input_longitudes_list)]) :=
  ⟨rfl, rfl, fun h => h⟩

/-- Witness for C9 at a concrete input: a 2x1x2 array with a NaN and an
infinity squeezes to a 2x2 field matching the two coordinate vectors;
the invalid values are retained. -/
theorem minput_2d_passthrough_witness :
    (npSqueeze (⟨[2, 1, 2], [Val.nan, Val.inf, Val.num 3, Val.num 4]⟩ : NDArray)).shape =
      [npLen (npSqueeze (⟨[2], [Val.num 50, Val.num 51]⟩ : NDArray)),
       npLen (npSqueeze (⟨[2], [Val.num 100, Val.num 101]⟩ : NDArray))] ∧
    (minput_2d ⟨[2, 1, 2], [Val.nan, Val.inf, Val.num 3, Val.num 4]⟩
        ⟨[2], [Val.num 100, Val.num 101]⟩ ⟨[2], [Val.num 50, Val.num 51]⟩
        none).input_field.shape =
      [npLen ((minput_2d ⟨[2, 1, 2], [Val.nan, Val.inf, Val.num 3, Val.num 4]⟩
          ⟨[2], [Val.num 100, Val.num 101]⟩ ⟨[2], [Val.num 50, Val.num 51]⟩
          none).input_latitudes_list),
       npLen ((minput_2d ⟨[2, 1, 2], [Val.nan, Val.inf, Val.num 3, Val.num 4]⟩
          ⟨[2], [Val.num 100, Val.num 101]⟩ ⟨[2], [Val.num 50, Val.num 51]⟩
          none).input_longitudes_list)] :=
  ⟨by decide,
   (minput_2d_passthrough ⟨[2, 1, 2], [Val.nan, Val.inf, Val.num 3, Val.num 4]⟩
     ⟨[2], [Val.num 100, Val.num 101]⟩ ⟨[2], [Val.num 50, Val.num 51]⟩ none).2.2
     (by decide)⟩

end NmcMagics
